import Mathlib

/-!
A Lean model of the paged-file cache and the offset-level navigation,
selection and search engine of `hexview.py` (walterdejong/hexview).

Conventions of the embedding:
* byte strings (Python `bytearray` / `str`) are `List Nat`;
* Python integers are `Int`; Python floor division and modulo are
  `Int.ediv` / `Int.emod`, which agree with Python on negative operands;
* a raised exception is modelled as `none` in an `Option` result, paired
  with the state the object holds when the exception leaves the method;
* the unbounded `while` loop of `MemoryFile.find` takes explicit fuel and
  yields `none` for the result when the fuel runs out (the state component
  is the state reached so far).
-/

namespace Hexview

/-- Python `data[i]` on a bytearray: a negative index counts from the end,
an out-of-range index raises `IndexError` (modelled as `none`). -/
def pyGetByte (l : List Nat) (i : Int) : Option Nat :=
  if i < 0 then
    if (l.length : Int) + i < 0 then none
    else l[((l.length : Int) + i).toNat]?
  else l[i.toNat]?

/-- Python slice `l[a:b]` (step 1): negative endpoints count from the end,
endpoints are clamped into `[0, len(l)]`, never raising. -/
def pySlice (l : List Nat) (a b : Int) : List Nat :=
  let n : Int := l.length
  let a1 : Int := if a < 0 then max (n + a) 0 else min a n
  let b1 : Int := if b < 0 then max (n + b) 0 else min b n
  (l.take b1.toNat).drop a1.toNat

/-- Python `fd.seek(offset); fd.read(size)` on a file whose bytes are
`contents`: a negative size reads to EOF. -/
def fileRead (contents : List Nat) (offset size : Int) : List Nat :=
  let rest := contents.drop offset.toNat
  if size < 0 then rest else rest.take size.toNat

/-- Scan helper for Python `bytearray.find`: try positions
`s, s+1, ...` (`fuel` many candidates), returning the first position where
`needle` occurs, or `-1`. -/
def pyFindAux (data needle : List Nat) : Nat → Nat → Int
  | _, 0 => -1
  | s, fuel + 1 =>
    if (data.drop s).take needle.length = needle then (s : Int)
    else pyFindAux data needle (s + 1) fuel

/-- Python `data.find(needle, start)`: lowest index `≥ start` at which
`needle` occurs in `data`, or `-1`; a negative `start` counts from the
end and is clamped at `0`. -/
def pyFindFrom (data needle : List Nat) (start : Int) : Int :=
  let s : Nat := if start < 0 then ((data.length : Int) + start).toNat else start.toNat
  pyFindAux data needle s (data.length + 1 - s)

/-- State of `MemoryFile` (hexview.py:24-141): `contents` is the byte
sequence of the underlying file (accessed through `self.fd`), `filesize`
its length as stat'ed by `load`, `[low, high)` the cached window and
`data` the cached bytes. -/
structure MemoryFile where
  contents : List Nat
  filesize : Int
  low : Int
  high : Int
  data : List Nat
  cachesize : Int
  deriving DecidableEq

/-- `MemoryFile.IOSIZE` (hexview.py:27). -/
def IOSIZE : Int := 256 * 1024

/-- Cache size computed by `MemoryFile.__init__` (hexview.py:36-41):
three pages, rounded up to a multiple of `IOSIZE`. -/
def initCachesize (pagesize : Int) : Int :=
  let c := pagesize * 3
  if c % IOSIZE ≠ 0 then c + (IOSIZE - c % IOSIZE) else c

/-- `MemoryFile.load` (hexview.py:47-55): reads the initial window of
`cachesize` bytes from offset 0. -/
def MemoryFile.load (contents : List Nat) (cachesize : Int) : MemoryFile :=
  let d := fileRead contents 0 cachesize
  { contents := contents
    filesize := (contents.length : Int)
    low := 0
    high := (d.length : Int)
    data := d
    cachesize := cachesize }

/-- `MemoryFile.pagefault` (hexview.py:100-114): reloads the cache window
centered on `addr`, clamping `low` at `0` and the tentative `high` at
`filesize`, then sets `high` past the bytes actually read. -/
def MemoryFile.pagefault (m : MemoryFile) (addr : Int) : MemoryFile :=
  let low0 := addr - m.cachesize / 2
  let low := if low0 < 0 then 0 else low0
  let high0 := addr + m.cachesize / 2
  let high := if high0 > m.filesize then m.filesize else high0
  let d := fileRead m.contents low (high - low)
  { m with low := low, high := low + (d.length : Int), data := d }

/-- `MemoryFile.__getitem__` with an `int` index (hexview.py:73-84):
raises `IndexError` (`none`) outside `[0, filesize)`, pagefaults when the
index is outside the cached window, then indexes the cache.  The second
component is the post-state. -/
def MemoryFile.getitem (m : MemoryFile) (idx : Int) : Option Nat × MemoryFile :=
  if idx < 0 ∨ m.filesize ≤ idx then (none, m)
  else
    let m1 := if idx < m.low ∨ m.high ≤ idx then m.pagefault idx else m
    (pyGetByte m1.data (idx - m1.low), m1)

/-- `MemoryFile.__getitem__` with a `slice` (hexview.py:86-95): raises
`IndexError` if `start < 0` or `stop > filesize`; if the range is not
covered by the window, pagefaults anchored at the *current* `low`; then
slices the cache. -/
def MemoryFile.getslice (m : MemoryFile) (start stop : Int) : Option (List Nat) × MemoryFile :=
  if start < 0 ∨ m.filesize < stop then (none, m)
  else
    let m1 := if start < m.low ∨ m.high < stop then m.pagefault m.low else m
    (some (pySlice m1.data (start - m1.low) (stop - m1.low)), m1)

/-- The window advance in `MemoryFile.find` (hexview.py:139-140):
`self.low = self.high - len(searchtext); self.pagefault(self.low)`. -/
def MemoryFile.findAdvance (m : MemoryFile) (tlen : Int) : MemoryFile :=
  m.pagefault (m.high - tlen)

/-- The `while True` loop of `MemoryFile.find` (hexview.py:129-141),
with fuel.  `rpos` is `pos` after the one-time `pos -= self.low`; note the
source never updates it when the window advances. -/
def MemoryFile.findLoop (needle : List Nat) (rpos : Int) : Nat → MemoryFile → Option Int × MemoryFile
  | 0, m => (none, m)
  | fuel + 1, m =>
    let idx := pyFindFrom m.data needle rpos
    if 0 ≤ idx then (some (idx + m.low), m)
    else if m.filesize ≤ m.high then (some (-1), m)
    else MemoryFile.findLoop needle rpos fuel (m.findAdvance (needle.length : Int))

/-- `MemoryFile.find` (hexview.py:116-141): returns `-1` immediately for a
start position outside `[0, filesize)`; otherwise pagefaults anchored at
the current `low` when `[pos, pos+len]` is not strictly inside the window,
and scans, advancing the window until found or EOF. -/
def MemoryFile.find (m : MemoryFile) (needle : List Nat) (pos : Int) (fuel : Nat) :
    Option Int × MemoryFile :=
  if pos < 0 ∨ m.filesize ≤ pos then (some (-1), m)
  else
    let m1 := if pos < m.low ∨ m.high ≤ pos + (needle.length : Int) then m.pagefault m.low else m
    MemoryFile.findLoop needle (pos - m1.low) fuel m1

/-- Window invariant maintained by every `MemoryFile` operation:
`filesize` is the length of the underlying file, the cache window lies
inside the file, the cached bytes are exactly the file bytes of the
window, and the cache size is at least 2 (the constructor always produces
a positive multiple of `IOSIZE`). -/
def MemoryFile.Inv (m : MemoryFile) : Prop :=
  m.filesize = (m.contents.length : Int) ∧
  0 ≤ m.low ∧ m.low ≤ m.high ∧ m.high ≤ m.filesize ∧
  m.data = (m.contents.drop m.low.toNat).take (m.high - m.low).toNat ∧
  2 ≤ m.cachesize

theorem take_length_take (X : List Nat) (s : Nat) : X.take (X.take s).length = X.take s := by
  rw [List.length_take, List.take_eq_take]
  omega

theorem MemoryFile.pagefault_fields (m : MemoryFile) (addr : Int) :
    (m.pagefault addr).contents = m.contents ∧
    (m.pagefault addr).filesize = m.filesize ∧
    (m.pagefault addr).cachesize = m.cachesize := by
  simp [MemoryFile.pagefault]

theorem MemoryFile.pagefault_inv (m : MemoryFile) (addr : Int)
    (hm : m.Inv) (ha : addr ≤ m.filesize) : (m.pagefault addr).Inv := by
  obtain ⟨hsz, hl0, hlh, hhN, hdata, hc⟩ := hm
  simp only [MemoryFile.pagefault, fileRead, MemoryFile.Inv]
  split_ifs <;>
    refine ⟨hsz, by omega, by omega,
      by simp only [List.length_take, List.length_drop]; omega, ?_, hc⟩ <;>
  · rw [add_sub_cancel_left, Int.toNat_natCast]
    first
      | exact (List.take_length _).symm
      | exact (take_length_take _ _).symm

/-- After a pagefault at a valid byte address, the window contains it. -/
theorem MemoryFile.pagefault_window (m : MemoryFile) (addr : Int)
    (hm : m.Inv) (h0 : 0 ≤ addr) (hN : addr < m.filesize) :
    (m.pagefault addr).low ≤ addr ∧ addr < (m.pagefault addr).high := by
  obtain ⟨hsz, hl0, hlh, hhN, hdata, hc⟩ := hm
  have hc2 : 1 ≤ m.cachesize / 2 := by omega
  simp only [MemoryFile.pagefault, fileRead]
  split_ifs <;>
    simp only [List.length_take, List.length_drop] <;> omega

/-- Reading the cache at a window-resident address yields the file byte. -/
theorem MemoryFile.read_in_window (m : MemoryFile) (idx : Int)
    (hm : m.Inv) (hlo : m.low ≤ idx) (hhi : idx < m.high) :
    pyGetByte m.data (idx - m.low) = m.contents[idx.toNat]? := by
  obtain ⟨hsz, hl0, hlh, hhN, hdata, hc⟩ := hm
  have h1 : ¬ (idx - m.low < 0) := by omega
  rw [pyGetByte, if_neg h1, hdata, List.getElem?_take,
    if_pos (by omega : (idx - m.low).toNat < (m.high - m.low).toNat),
    List.getElem?_drop]
  congr 1
  omega

/-- `byte_at` is correct on any state satisfying the window invariant. -/
theorem MemoryFile.getitem_spec (m : MemoryFile) (idx : Int)
    (hm : m.Inv) (h0 : 0 ≤ idx) (hN : idx < m.filesize) :
    (m.getitem idx).1 = m.contents[idx.toNat]? := by
  rw [MemoryFile.getitem, if_neg (by omega)]
  by_cases hw : idx < m.low ∨ m.high ≤ idx
  · simp only [hw, if_pos]
    have hwin := m.pagefault_window idx hm h0 hN
    have hinv := m.pagefault_inv idx hm (by omega)
    have hfld := m.pagefault_fields idx
    rw [MemoryFile.read_in_window _ idx hinv hwin.1 hwin.2, hfld.1]
  · simp only [hw, if_neg, not_false_iff]
    exact m.read_in_window idx hm (by omega) (by omega)

theorem MemoryFile.getitem_post (m : MemoryFile) (idx : Int) (hm : m.Inv) :
    (m.getitem idx).2.Inv ∧ (m.getitem idx).2.contents = m.contents ∧
    (m.getitem idx).2.filesize = m.filesize := by
  rw [MemoryFile.getitem]
  split_ifs with h1 h2
  · exact ⟨hm, rfl, rfl⟩
  · exact ⟨m.pagefault_inv idx hm (by omega), (m.pagefault_fields idx).1,
      (m.pagefault_fields idx).2.1⟩
  · exact ⟨hm, rfl, rfl⟩

theorem MemoryFile.getslice_post (m : MemoryFile) (start stop : Int) (hm : m.Inv) :
    (m.getslice start stop).2.Inv ∧ (m.getslice start stop).2.contents = m.contents ∧
    (m.getslice start stop).2.filesize = m.filesize := by
  have hlo : m.low ≤ m.filesize := by obtain ⟨_, _, h3, h4, _, _⟩ := hm; omega
  rw [MemoryFile.getslice]
  split_ifs with h1 h2
  · exact ⟨hm, rfl, rfl⟩
  · exact ⟨m.pagefault_inv m.low hm hlo, (m.pagefault_fields m.low).1,
      (m.pagefault_fields m.low).2.1⟩
  · exact ⟨hm, rfl, rfl⟩

theorem MemoryFile.findAdvance_post (m : MemoryFile) (tlen : Int) (hm : m.Inv)
    (ht : 0 ≤ tlen) :
    (m.findAdvance tlen).Inv ∧ (m.findAdvance tlen).contents = m.contents ∧
    (m.findAdvance tlen).filesize = m.filesize := by
  have hhi : m.high - tlen ≤ m.filesize := by obtain ⟨_, _, _, h4, _, _⟩ := hm; omega
  exact ⟨m.pagefault_inv _ hm hhi, (m.pagefault_fields _).1, (m.pagefault_fields _).2.1⟩

theorem MemoryFile.findLoop_post (needle : List Nat) (rpos : Int) (fuel : Nat)
    (m : MemoryFile) (hm : m.Inv) :
    (MemoryFile.findLoop needle rpos fuel m).2.Inv ∧
    (MemoryFile.findLoop needle rpos fuel m).2.contents = m.contents ∧
    (MemoryFile.findLoop needle rpos fuel m).2.filesize = m.filesize := by
  induction fuel generalizing m with
  | zero => exact ⟨hm, rfl, rfl⟩
  | succ n ih =>
    rw [MemoryFile.findLoop]
    split_ifs with h1 h2
    · exact ⟨hm, rfl, rfl⟩
    · exact ⟨hm, rfl, rfl⟩
    · have hadv := m.findAdvance_post (needle.length : Int) hm (by positivity)
      have hrec := ih (m.findAdvance (needle.length : Int)) hadv.1
      exact ⟨hrec.1, hrec.2.1.trans hadv.2.1, hrec.2.2.trans hadv.2.2⟩

theorem MemoryFile.find_post (m : MemoryFile) (needle : List Nat) (pos : Int)
    (fuel : Nat) (hm : m.Inv) :
    (m.find needle pos fuel).2.Inv ∧ (m.find needle pos fuel).2.contents = m.contents ∧
    (m.find needle pos fuel).2.filesize = m.filesize := by
  have hlo : m.low ≤ m.filesize := by obtain ⟨_, _, h3, h4, _, _⟩ := hm; omega
  rw [MemoryFile.find]
  split_ifs with h1 h2
  · exact ⟨hm, rfl, rfl⟩
  · have hpf := m.pagefault_inv m.low hm hlo
    have hfld := m.pagefault_fields m.low
    have hrec := MemoryFile.findLoop_post needle (pos - (m.pagefault m.low).low) fuel _ hpf
    exact ⟨hrec.1, hrec.2.1.trans hfld.1, hrec.2.2.trans hfld.2.1⟩
  · exact MemoryFile.findLoop_post needle (pos - m.low) fuel m hm

/-- The operations a client can perform on a `MemoryFile`: a byte read
(`__getitem__` with an int), a slice read (`__getitem__` with a slice),
and a pattern search (`find`, with fuel for its loop). -/
inductive MFOp where
  | readByte (idx : Int)
  | readSlice (start stop : Int)
  | search (needle : List Nat) (pos : Int) (fuel : Nat)
  deriving DecidableEq

/-- Post-state of one `MemoryFile` operation. -/
def MemoryFile.applyOp (m : MemoryFile) : MFOp → MemoryFile
  | .readByte idx => (m.getitem idx).2
  | .readSlice start stop => (m.getslice start stop).2
  | .search needle pos fuel => (m.find needle pos fuel).2

/-- Post-state of a sequence of `MemoryFile` operations. -/
def MemoryFile.applyOps (m : MemoryFile) (ops : List MFOp) : MemoryFile :=
  ops.foldl MemoryFile.applyOp m

theorem MemoryFile.applyOp_post (m : MemoryFile) (op : MFOp) (hm : m.Inv) :
    (m.applyOp op).Inv ∧ (m.applyOp op).contents = m.contents ∧
    (m.applyOp op).filesize = m.filesize := by
  cases op with
  | readByte idx => exact m.getitem_post idx hm
  | readSlice start stop => exact m.getslice_post start stop hm
  | search needle pos fuel => exact m.find_post needle pos fuel hm

theorem MemoryFile.applyOps_post (m : MemoryFile) (ops : List MFOp) (hm : m.Inv) :
    (m.applyOps ops).Inv ∧ (m.applyOps ops).contents = m.contents ∧
    (m.applyOps ops).filesize = m.filesize := by
  induction ops generalizing m with
  | nil => exact ⟨hm, rfl, rfl⟩
  | cons op rest ih =>
    have h1 := m.applyOp_post op hm
    have h2 := ih (m.applyOp op) h1.1
    exact ⟨h2.1, h2.2.1.trans h1.2.1, h2.2.2.trans h1.2.2⟩

theorem MemoryFile.load_inv (contents : List Nat) (c : Int) (hc : 2 ≤ c) :
    (MemoryFile.load contents c).Inv := by
  rw [MemoryFile.load, fileRead]
  refine ⟨rfl, le_refl 0, by positivity, ?_, ?_, hc⟩
  · simp only [if_neg (by omega : ¬ c < 0), Int.toNat_zero, List.drop_zero]
    simp [List.length_take]
  · simp only [if_neg (by omega : ¬ c < 0), Int.toNat_zero, List.drop_zero,
      sub_zero, Int.toNat_natCast]
    exact (take_length_take contents c.toNat).symm

/-- C1: For every file of size N, every address `addr` in `[0, N)`, and any
prior sequence of byte reads, slice reads, and find operations on the
`MemoryFile`, `byte_at(addr)` (indexing with an int) returns exactly the
byte at offset `addr` of the underlying file (and that byte exists). -/
theorem C1_byte_at_roundtrip (contents : List Nat) (c : Int) (ops : List MFOp)
    (addr : Int) (hc : 2 ≤ c) (h0 : 0 ≤ addr)
    (hN : addr < (contents.length : Int)) :
    (((MemoryFile.load contents c).applyOps ops).getitem addr).1 =
      contents[addr.toNat]? ∧ (contents[addr.toNat]?).isSome = true := by
  have hload := MemoryFile.load_inv contents c hc
  have hpost := (MemoryFile.load contents c).applyOps_post ops hload
  have hsz : ((MemoryFile.load contents c).applyOps ops).filesize =
      (contents.length : Int) := by
    rw [hpost.2.2]; rfl
  have hspec := ((MemoryFile.load contents c).applyOps ops).getitem_spec addr
    hpost.1 h0 (by omega)
  have hcon : ((MemoryFile.load contents c).applyOps ops).contents = contents := by
    rw [hpost.2.1]; rfl
  constructor
  · rw [hspec, hcon]
  · rw [List.getElem?_eq_getElem (by omega : addr.toNat < contents.length)]
    rfl

theorem C1_byte_at_roundtrip_witness :
    (2:Int) ≤ 4 ∧ (0:Int) ≤ 2 ∧ (2:Int) < (([7,8,9] : List Nat).length : Int) ∧
    (((MemoryFile.load [7,8,9] 4).applyOps
        [MFOp.readByte 0, MFOp.readSlice 0 2, MFOp.search [8] 0 5]).getitem 2).1 =
      some 9 := by
  refine ⟨by norm_num, by norm_num, by norm_num, ?_⟩
  have h := C1_byte_at_roundtrip [7,8,9] 4
    [MFOp.readByte 0, MFOp.readSlice 0 2, MFOp.search [8] 0 5] 2
    (by norm_num) (by norm_num) (by norm_num)
  rw [h.1]
  decide

/-- The 200-byte file of Scenario A: byte value `i` at offset `i`. -/
def file200 : List Nat := List.range 200

/-- Scenario A state (C3): 200-byte file, `cache_size = 48`, initial
window `[0, 48)` holding the first 48 file bytes. -/
def m200 : MemoryFile :=
  { contents := file200
    filesize := 200
    low := 0
    high := 48
    data := file200.take 48
    cachesize := 48 }

set_option maxRecDepth 4000 in
/-- C3 counterexample: after `byte_at(10)` then `byte_at(190)` the new
window low is 166, not `clamp(190 - 24, 0, 152) = 152` — `pagefault`
clamps `low` only at 0, never at `filesize - cachesize`. -/
theorem C3_counterexample :
    ((m200.getitem 10).2.getitem 190).2.low = 166 ∧
    ((m200.getitem 10).2.getitem 190).2.low ≠ 152 := by
  constructor <;> decide

set_option maxRecDepth 4000 in
/-- C3 (amended): `byte_at(10)` does not reload (the state is returned
unchanged and the fault condition of hexview.py:81 is false); `byte_at(190)`
hits the fault condition and performs exactly one `pagefault`, after which
the window is `[166, 200)` — `low = max(190 - 24, 0) = 166` — which
contains offset 190, and the correct byte is returned. -/
theorem C3_paging_scenario :
    (m200.getitem 10).1 = some 10 ∧
    (m200.getitem 10).2 = m200 ∧
    ¬ ((10:Int) < m200.low ∨ m200.high ≤ (10:Int)) ∧
    ((190:Int) < m200.low ∨ m200.high ≤ (190:Int)) ∧
    (m200.getitem 190).2 = m200.pagefault 190 ∧
    (m200.getitem 190).2.low = 166 ∧
    (m200.getitem 190).2.high = 200 ∧
    (m200.getitem 190).2.low ≤ 190 ∧ (190:Int) < (m200.getitem 190).2.high ∧
    (m200.getitem 190).1 = some 190 := by
  refine ⟨?_, ?_, ?_, ?_, ?_, ?_, ?_, ?_, ?_, ?_⟩ <;> decide

/-- The file `"abcabc"` of Scenario D, fully loaded in the cache. -/
def mAbc : MemoryFile :=
  { contents := [97, 98, 99, 97, 98, 99]
    filesize := 6
    low := 0
    high := 6
    data := [97, 98, 99, 97, 98, 99]
    cachesize := 48 }

/-- C10: for a start position outside `[0, N)`, `MemoryFile.find` returns
`-1` without raising and without touching the cache window, while a byte
read at the same address raises `IndexError` (also without touching the
window). -/
theorem C10_find_out_of_range (m : MemoryFile) (needle : List Nat) (pos : Int)
    (fuel : Nat) (h : pos < 0 ∨ m.filesize ≤ pos) :
    m.find needle pos fuel = (some (-1), m) ∧ m.getitem pos = (none, m) := by
  constructor
  · rw [MemoryFile.find, if_pos h]
  · rw [MemoryFile.getitem, if_pos h]

theorem C10_find_out_of_range_witness :
    (((-5:Int) < 0 ∨ mAbc.filesize ≤ -5) ∧
      mAbc.find [97] (-5) 3 = (some (-1), mAbc) ∧
      mAbc.getitem (-5) = (none, mAbc)) ∧
    (((6:Int) < 0 ∨ mAbc.filesize ≤ 6) ∧
      mAbc.find [97] 6 3 = (some (-1), mAbc) ∧
      mAbc.getitem 6 = (none, mAbc)) := by
  constructor
  · exact ⟨Or.inl (by decide),
      C10_find_out_of_range mAbc [97] (-5) 3 (Or.inl (by decide))⟩
  · exact ⟨Or.inr (by decide),
      C10_find_out_of_range mAbc [97] 6 3 (Or.inr (by decide))⟩

/-- The selection-range update rule of `HexWindow.update_selection`
(hexview.py:1018-1034) as a function of the current range `(sstart, send)`,
the previous cursor address `old` and the new cursor address `addr`:
if the range is unstretched, grow toward `addr`; otherwise move the
endpoint that equals `old`; finally swap if start exceeds end. -/
def selUpdate (sstart send old addr : Int) : Int × Int :=
  let p :=
    if sstart = send then
      if addr < sstart then (addr, send)
      else if addr > send then (sstart, addr)
      else (sstart, send)
    else
      if old = sstart then (addr, send)
      else if old = send then (sstart, addr)
      else (sstart, send)
  if p.1 > p.2 then (p.2, p.1) else p

/-- Selection activation (`HexWindow.mode_selection`, hexview.py:997-1000)
followed by a sequence of cursor moves, each reported as
`(old_address, new_address)` to the update rule. -/
def selRun (a : Int) (moves : List (Int × Int)) : Int × Int :=
  moves.foldl (fun se mv => selUpdate se.1 se.2 mv.1 mv.2) (a, a)

/-- C4: the selection update follows the exact two-branch rule: from an
unstretched range it grows toward the new address; otherwise the endpoint
equal to the old address moves to the new address; afterwards start and
end are swapped if out of order.  In particular `activate(50)`,
`on_cursor_moved(50,40)`, `on_cursor_moved(40,60)` yields `[50,60]`. -/
theorem C4_selection_two_branch_rule (s e o n : Int) :
    (s = e → n < s → selUpdate s e o n = (n, e)) ∧
    (s = e → e < n → selUpdate s e o n = (s, n)) ∧
    (s = e → n = s → selUpdate s e o n = (s, e)) ∧
    (s ≠ e → o = s → selUpdate s e o n = (min n e, max n e)) ∧
    (s ≠ e → o ≠ s → o = e → selUpdate s e o n = (min s n, max s n)) ∧
    selRun 50 [(50, 40), (40, 60)] = (50, 60) := by
  refine ⟨?_, ?_, ?_, ?_, ?_, by decide⟩ <;>
    (intros; unfold selUpdate; split_ifs <;> simp_all <;>
      (try split_ifs <;> simp_all) <;> omega)

theorem C4_selection_two_branch_rule_witness :
    selUpdate 50 50 50 40 = (40, 50) ∧ selUpdate 40 50 40 60 = (50, 60) := by
  constructor
  · exact (C4_selection_two_branch_rule 50 50 50 40).1 rfl (by norm_num)
  · have h := (C4_selection_two_branch_rule 40 50 40 60).2.2.2.1 (by norm_num) rfl
    rw [h]
    decide

theorem selUpdate_sorted (s e o n : Int) :
    (selUpdate s e o n).1 ≤ (selUpdate s e o n).2 := by
  unfold selUpdate
  split_ifs <;> simp_all <;> split_ifs <;> simp_all <;> omega

/-- C5: after activating a selection at any address and applying any
sequence of cursor-move updates with arbitrary old/new addresses,
`start ≤ end` holds — the final swap in `update_selection`
(hexview.py:1029-1034) restores order after every update. -/
theorem C5_selection_invariant (a : Int) (moves : List (Int × Int)) :
    (selRun a moves).1 ≤ (selRun a moves).2 := by
  have key : ∀ (l : List (Int × Int)) (se : Int × Int), se.1 ≤ se.2 →
      (l.foldl (fun se mv => selUpdate se.1 se.2 mv.1 mv.2) se).1 ≤
      (l.foldl (fun se mv => selUpdate se.1 se.2 mv.1 mv.2) se).2 := by
    intro l
    induction l with
    | nil => intro se h; exact h
    | cons mv rest ih =>
      intro se _
      rw [List.foldl_cons]
      exact ih _ (selUpdate_sorted se.1 se.2 mv.1 mv.2)
  exact key moves (a, a) le_rfl

theorem C5_selection_invariant_witness :
    (selRun 7 [(7, 100), (100, 3), (3, 60)]).1 ≤
    (selRun 7 [(7, 100), (100, 3), (3, 60)]).2 :=
  C5_selection_invariant 7 [(7, 100), (100, 3), (3, 60)]

/-- State of the `HexWindow` navigation engine (hexview.py:159-191):
`data` is the `MemoryFile`, `address` the top-of-page byte offset,
`(cursor_x, cursor_y)` the cursor column/row, `h` the page height in rows
(`self.bounds.h`), and the `old_*` fields the pre-keystroke snapshot taken
by the runloop (hexview.py:1566-1568). -/
structure HexWindow where
  data : MemoryFile
  address : Int
  cursor_x : Int
  cursor_y : Int
  view_option : Nat
  mode : Nat
  selection_start : Int
  selection_end : Int
  old_addr : Int
  old_x : Int
  old_y : Int
  h : Int
  deriving DecidableEq

/-- `HexWindow.MODE_SELECT` (hexview.py:153). -/
def MODE_SELECT : Nat := 1

/-- The byte address under the cursor, `address + cursor_y*16 + cursor_x`. -/
def HexWindow.cursorAddr (w : HexWindow) : Int :=
  w.address + w.cursor_y * 16 + w.cursor_x

/-- The cursor address before the current keystroke (hexview.py:1015). -/
def HexWindow.oldCursorAddr (w : HexWindow) : Int :=
  w.old_addr + w.old_y * 16 + w.old_x

/-- `HexWindow.update_selection` (hexview.py:1011-1036): in selection mode,
apply the two-branch update rule to the stored range. -/
def HexWindow.update_selection (w : HexWindow) : HexWindow :=
  if w.mode &&& MODE_SELECT ≠ 0 then
    let p := selUpdate w.selection_start w.selection_end w.oldCursorAddr w.cursorAddr
    { w with selection_start := p.1, selection_end := p.2 }
  else w

/-- `HexWindow.scroll_up` (hexview.py:757-764). -/
def HexWindow.scroll_up (w : HexWindow) (nlines : Int) : HexWindow :=
  let a := w.address - nlines * 16
  { w with address := if a < 0 then 0 else a }

/-- The clamped scroll target of `HexWindow.scroll_down` (hexview.py:769-775). -/
def HexWindow.scrollDownAddr (w : HexWindow) (nlines : Int) : Int :=
  let addr := w.address + nlines * 16
  let pagesize := w.h * 16
  let addr := if w.data.filesize - pagesize < addr then w.data.filesize - pagesize else addr
  if addr < 0 then 0 else addr

/-- `HexWindow.scroll_down` (hexview.py:766-779): assigns only when the
clamped target differs from the current address. -/
def HexWindow.scroll_down (w : HexWindow) (nlines : Int) : HexWindow :=
  let addr := w.scrollDownAddr nlines
  if addr ≠ w.address then { w with address := addr } else w

/-- `HexWindow.move_up` (hexview.py:781-795). -/
def HexWindow.move_up (w : HexWindow) : HexWindow :=
  if w.cursor_y = 0 ∧ w.address = 0 then w
  else
    let w1 := if w.cursor_y = 0 then w.scroll_up 1 else { w with cursor_y := w.cursor_y - 1 }
    w1.update_selection

/-- `HexWindow.move_down` (hexview.py:797-812): on the bottom row, scroll
one line (returning silently if already at the end); otherwise just move
the cursor down — with no check against the file size. -/
def HexWindow.move_down (w : HexWindow) : HexWindow :=
  if w.h - 1 ≤ w.cursor_y then
    let w1 := w.scroll_down 1
    if w1.address = w.address then w else w1.update_selection
  else
    ({ w with cursor_y := w.cursor_y + 1 }).update_selection

/-- `HexWindow.move_left` (hexview.py:814-833). -/
def HexWindow.move_left (w : HexWindow) : HexWindow :=
  if w.cursor_x = 0 ∧ w.cursor_y = 0 ∧ w.address = 0 then w
  else
    let w1 := if w.cursor_x = 0 ∧ w.cursor_y = 0 then w.scroll_up 1 else w
    let w2 :=
      if w1.cursor_x = 0 then
        { w1 with cursor_y := if 0 < w1.cursor_y then w1.cursor_y - 1 else w1.cursor_y,
                  cursor_x := 15 }
      else { w1 with cursor_x := w1.cursor_x - 1 }
    w2.update_selection

/-- The cursor movement of `HexWindow.move_right` (hexview.py:848-853). -/
def HexWindow.moveRightCursor (w : HexWindow) : HexWindow :=
  if 15 ≤ w.cursor_x then
    { w with cursor_x := 0,
             cursor_y := if w.cursor_y < w.h - 1 then w.cursor_y + 1 else w.cursor_y }
  else { w with cursor_x := w.cursor_x + 1 }

/-- `HexWindow.move_right` (hexview.py:835-856). -/
def HexWindow.move_right (w : HexWindow) : HexWindow :=
  if 15 ≤ w.cursor_x ∧ w.h - 1 ≤ w.cursor_y then
    let w1 := w.scroll_down 1
    if w1.address = w.address then w else w1.moveRightCursor.update_selection
  else w.moveRightCursor.update_selection

/-- `HexWindow.pageup` (hexview.py:884-904): at the top of the file, move
the cursor to row 0; otherwise, if the cursor sits on the bottom row, move
it to row 0 *without scrolling*; only otherwise scroll up `h - 1` lines. -/
def HexWindow.pageup (w : HexWindow) : HexWindow :=
  if w.address = 0 then
    if w.cursor_y = 0 then w
    else ({ w with cursor_y := 0 }).update_selection
  else
    let w1 := if w.cursor_y = w.h - 1 then { w with cursor_y := 0 } else w.scroll_up (w.h - 1)
    w1.update_selection

/-- `HexWindow.pagedown` (hexview.py:906-924): if the cursor sits on the
top row, move it to the bottom row *without scrolling*; otherwise scroll
down `h - 1` lines, and if that had no effect move the cursor to the
bottom row. -/
def HexWindow.pagedown (w : HexWindow) : HexWindow :=
  if w.cursor_y = 0 then
    ({ w with cursor_y := w.h - 1 }).update_selection
  else
    let w1 := w.scroll_down (w.h - 1)
    if w1.address = w.address then
      if w.h - 1 ≤ w.cursor_y then w
      else ({ w1 with cursor_y := w.h - 1 }).update_selection
    else w1.update_selection

/-- `HexWindow.move_home` (hexview.py:926-940). -/
def HexWindow.move_home (w : HexWindow) : HexWindow :=
  if w.address = 0 ∧ w.cursor_x = 0 ∧ w.cursor_y = 0 then w
  else ({ w with address := 0, cursor_x := 0, cursor_y := 0 }).update_selection

/-- `HexWindow.move_end` (hexview.py:942-964). -/
def HexWindow.move_end (w : HexWindow) : HexWindow :=
  let pagesize := w.h * 16
  let top0 := w.data.filesize - pagesize
  let top := if top0 < 0 then 0 else top0
  let w1 := { w with address := top }
  let w2 :=
    if w.data.filesize < pagesize then
      { w1 with cursor_y := w.data.filesize / 16, cursor_x := w.data.filesize % 16 }
    else { w1 with cursor_y := w.h - 1, cursor_x := 15 }
  w2.update_selection

/-- The error reported by `search_error('Invalid address')`
(hexview.py:1309-1315, 1352-1358). -/
inductive NavError where
  | invalidAddress
  deriving DecidableEq

/-- `HexWindow.plus_offset` (hexview.py:1287-1328), from the point where
the entered hex text has been parsed to the integer `offset`: reject a
target outside `[0, N]` with an error and no state change; otherwise clamp
into the valid top-address range and assign if different. -/
def HexWindow.plus_offset (w : HexWindow) (offset : Int) : HexWindow × Option NavError :=
  let addr := w.address + offset
  if addr < 0 then (w, some NavError.invalidAddress)
  else if w.data.filesize < addr then (w, some NavError.invalidAddress)
  else
    let pagesize := w.h * 16
    let addr1 := if w.data.filesize - pagesize < addr then w.data.filesize - pagesize else addr
    let addr2 := if addr1 < 0 then 0 else addr1
    if addr2 = w.address then (w, none)
    else ({ w with address := addr2 }, none)

/-- `HexWindow.minus_offset` (hexview.py:1330-1371), from the point where
the entered hex text has been parsed to the integer `offset`. -/
def HexWindow.minus_offset (w : HexWindow) (offset : Int) : HexWindow × Option NavError :=
  let addr := w.address - offset
  if addr < 0 then (w, some NavError.invalidAddress)
  else if w.data.filesize < addr then (w, some NavError.invalidAddress)
  else
    let pagesize := w.h * 16
    let addr1 := if w.data.filesize - pagesize < addr then w.data.filesize - pagesize else addr
    let addr2 := if addr1 < 0 then 0 else addr1
    if addr2 = w.address then (w, none)
    else ({ w with address := addr2 }, none)

/-- The byte fetch issued by `draw_cursor` (hexview.py:637-642):
`self.data[self.address + y*16 + self.cursor_x]`, whose `IndexError` is
caught and replaced by a space. -/
def HexWindow.draw_cursor_fetch (w : HexWindow) : Option Nat × MemoryFile :=
  w.data.getitem (w.address + w.cursor_y * 16 + w.cursor_x)

/-- The navigation keys of the runloop that C2 quantifies over. -/
inductive NavKey where
  | up | down | left | right | pgup | pgdown | home | toEnd
  deriving DecidableEq

/-- One runloop iteration (hexview.py:1559-1666): snapshot the `old_*`
fields, then run the handler for the key. -/
def HexWindow.dispatch (w0 : HexWindow) (k : NavKey) : HexWindow :=
  let w := { w0 with old_addr := w0.address, old_x := w0.cursor_x, old_y := w0.cursor_y }
  match k with
  | .up => w.move_up
  | .down => w.move_down
  | .left => w.move_left
  | .right => w.move_right
  | .pgup => w.pageup
  | .pgdown => w.pagedown
  | .home => w.move_home
  | .toEnd => w.move_end

/-- A fresh `HexWindow` over a file: `__init__` zeroes cursor and
selection state (hexview.py:168-174) and `load` opens the `MemoryFile`
with `pagesize = bounds.h * 16` (hexview.py:226). -/
def HexWindow.init (contents : List Nat) (h : Int) : HexWindow :=
  { data := MemoryFile.load contents (initCachesize (h * 16))
    address := 0
    cursor_x := 0
    cursor_y := 0
    view_option := 1
    mode := 0
    selection_start := 0
    selection_end := 0
    old_addr := 0
    old_x := 0
    old_y := 0
    h := h }

/-- Two `move_down` keystrokes on a freshly opened 5-byte file shown with
a 25-row page. -/
def smallFileTwoDown : HexWindow :=
  ((HexWindow.init [10, 20, 30, 40, 50] 25).dispatch NavKey.down).dispatch NavKey.down

/-- C2: the claimed invariant `topAddress + row*16 + col ∈ [0, N]` is the
code's evident intent but fails: with a 5-byte file and a 25-row page, two
`move_down` keystrokes from the initial state are accepted (`move_down`
never checks the file size) and put the cursor address at 32 > N = 5, and
`draw_cursor` (hexview.py:637-642) then issues a byte read at that address,
which raises `IndexError` — caught by the handler that the source marks
`FIXME IndexError due to cursor movement should be prevented`
(hexview.py:641). -/
theorem C2_cursor_invariant_code_bug :
    smallFileTwoDown.cursorAddr = 32 ∧
    smallFileTwoDown.data.filesize = 5 ∧
    smallFileTwoDown.data.filesize < smallFileTwoDown.cursorAddr ∧
    smallFileTwoDown.draw_cursor_fetch.1 = none := by
  refine ⟨?_, ?_, ?_, ?_⟩ <;> decide

/-- C8: whenever the target address of `plus_offset` / `minus_offset`
falls outside `[0, N]`, the operation reports `InvalidAddress` and returns
the entire viewer state (top address, cursor, view mode, selection)
unchanged — no clamping and no partial mutation. -/
theorem C8_offset_out_of_range (w : HexWindow) (offset : Int) :
    (w.address + offset < 0 ∨ w.data.filesize < w.address + offset →
      w.plus_offset offset = (w, some NavError.invalidAddress)) ∧
    (w.address - offset < 0 ∨ w.data.filesize < w.address - offset →
      w.minus_offset offset = (w, some NavError.invalidAddress)) := by
  constructor
  · intro h
    simp only [HexWindow.plus_offset]
    rcases h with h | h <;> split_ifs <;> rfl
  · intro h
    simp only [HexWindow.minus_offset]
    rcases h with h | h <;> split_ifs <;> rfl

/-- A viewer over a 3-byte file with a 3-row page. -/
def winSmall : HexWindow := HexWindow.init [0, 1, 2] 3

theorem C8_offset_out_of_range_witness :
    ((winSmall.address + 100 < 0 ∨ winSmall.data.filesize < winSmall.address + 100) ∧
      winSmall.plus_offset 100 = (winSmall, some NavError.invalidAddress)) ∧
    ((winSmall.address - 100 < 0 ∨ winSmall.data.filesize < winSmall.address - 100) ∧
      winSmall.minus_offset 100 = (winSmall, some NavError.invalidAddress)) := by
  constructor
  · exact ⟨Or.inr (by decide),
      (C8_offset_out_of_range winSmall 100).1 (Or.inr (by decide))⟩
  · exact ⟨Or.inl (by decide),
      (C8_offset_out_of_range winSmall 100).2 (Or.inl (by decide))⟩

theorem HexWindow.update_selection_keeps (w : HexWindow) :
    (w.update_selection).address = w.address ∧
    (w.update_selection).cursor_x = w.cursor_x ∧
    (w.update_selection).cursor_y = w.cursor_y ∧
    (w.update_selection).h = w.h ∧
    (w.update_selection).data = w.data := by
  unfold HexWindow.update_selection
  split_ifs <;> exact ⟨rfl, rfl, rfl, rfl, rfl⟩

/-- A reachable state over the 200-byte file with a 4-row page, top
address 48 and the cursor on the bottom row: two `pagedown` keystrokes
from the initial state. -/
def winPg : HexWindow :=
  ((HexWindow.init file200 4).dispatch NavKey.pgdown).dispatch NavKey.pgdown

set_option maxRecDepth 4000 in
/-- C9 counterexample: from a reachable state whose viewport is *not* at
the extreme scroll position (top address 48 over a 200-byte file), a
`pageup` with the cursor on the bottom row does not shift the top address
at all — it only moves the cursor to the top row — refuting the claim
that the cursor-to-edge behaviour happens only at the extreme position. -/
theorem C9_counterexample :
    winPg.address = 48 ∧ winPg.address ≠ 0 ∧
    (winPg.pageup).address = winPg.address ∧ (winPg.pageup).cursor_y = 0 := by
  refine ⟨?_, ?_, ?_, ?_⟩ <;> decide

/-- C9 (amended): `pageup` scrolls up by `pageRows - 1` lines only when
the top address is nonzero *and* the cursor is not on the bottom row; at
the top of the file, or with the cursor on the bottom row, it instead
moves the cursor to the top row without scrolling.  `pagedown` moves the
cursor to the bottom row without scrolling whenever the cursor is on the
top row; otherwise it scrolls down by `pageRows - 1` lines clamped at the
end of the file, and when that scroll has no effect it moves the cursor to
the bottom row. -/
theorem C9_page_movement (w : HexWindow) :
    (w.address = 0 → w.cursor_y = 0 → w.pageup = w) ∧
    (w.address = 0 → w.cursor_y ≠ 0 →
      (w.pageup).address = 0 ∧ (w.pageup).cursor_y = 0) ∧
    (w.address ≠ 0 → w.cursor_y = w.h - 1 →
      (w.pageup).address = w.address ∧ (w.pageup).cursor_y = 0) ∧
    (w.address ≠ 0 → w.cursor_y ≠ w.h - 1 →
      (w.pageup).address = max (w.address - (w.h - 1) * 16) 0 ∧
      (w.pageup).cursor_y = w.cursor_y) ∧
    (w.cursor_y = 0 →
      (w.pagedown).address = w.address ∧ (w.pagedown).cursor_y = w.h - 1) ∧
    (w.cursor_y ≠ 0 → w.scrollDownAddr (w.h - 1) ≠ w.address →
      (w.pagedown).address = w.scrollDownAddr (w.h - 1) ∧
      (w.pagedown).cursor_y = w.cursor_y) ∧
    (w.cursor_y ≠ 0 → w.scrollDownAddr (w.h - 1) = w.address → w.h - 1 ≤ w.cursor_y →
      w.pagedown = w) ∧
    (w.cursor_y ≠ 0 → w.scrollDownAddr (w.h - 1) = w.address → w.cursor_y < w.h - 1 →
      (w.pagedown).address = w.address ∧ (w.pagedown).cursor_y = w.h - 1) := by
  refine ⟨?_, ?_, ?_, ?_, ?_, ?_, ?_, ?_⟩
  · intro h1 h2
    simp [HexWindow.pageup, h1, h2]
  · intro h1 h2
    simp only [HexWindow.pageup]
    rw [if_pos h1, if_neg h2]
    exact ⟨((HexWindow.update_selection_keeps _).1).trans h1,
      (HexWindow.update_selection_keeps _).2.2.1⟩
  · intro h1 h2
    simp only [HexWindow.pageup]
    rw [if_neg h1, if_pos h2]
    exact ⟨(HexWindow.update_selection_keeps _).1,
      (HexWindow.update_selection_keeps _).2.2.1⟩
  · intro h1 h2
    simp only [HexWindow.pageup, HexWindow.scroll_up]
    rw [if_neg h1, if_neg h2]
    refine ⟨((HexWindow.update_selection_keeps _).1).trans ?_,
      (HexWindow.update_selection_keeps _).2.2.1⟩
    show (if w.address - (w.h - 1) * 16 < 0 then 0 else w.address - (w.h - 1) * 16) = _
    split_ifs <;> omega
  · intro h1
    simp only [HexWindow.pagedown]
    rw [if_pos h1]
    exact ⟨(HexWindow.update_selection_keeps _).1,
      (HexWindow.update_selection_keeps _).2.2.1⟩
  · intro h1 hsc
    simp only [HexWindow.pagedown, HexWindow.scroll_down]
    rw [if_neg h1, if_pos hsc, if_neg hsc]
    exact ⟨(HexWindow.update_selection_keeps _).1,
      (HexWindow.update_selection_keeps _).2.2.1⟩
  · intro h1 hsc h3
    simp only [HexWindow.pagedown, HexWindow.scroll_down]
    rw [if_neg h1, if_neg (not_not_intro hsc), if_pos rfl, if_pos h3]
  · intro h1 hsc h3
    simp only [HexWindow.pagedown, HexWindow.scroll_down]
    rw [if_neg h1, if_neg (not_not_intro hsc), if_pos rfl, if_neg (by omega)]
    exact ⟨(HexWindow.update_selection_keeps _).1,
      (HexWindow.update_selection_keeps _).2.2.1⟩

set_option maxRecDepth 4000 in
theorem C9_page_movement_witness :
    (winPg.address ≠ 0 ∧ winPg.cursor_y = winPg.h - 1 ∧
      (winPg.pageup).address = winPg.address ∧ (winPg.pageup).cursor_y = 0) ∧
    ((HexWindow.init file200 4).cursor_y = 0 ∧
      ((HexWindow.init file200 4).pagedown).address =
        (HexWindow.init file200 4).address ∧
      ((HexWindow.init file200 4).pagedown).cursor_y =
        (HexWindow.init file200 4).h - 1) := by
  constructor
  · have h := (C9_page_movement winPg).2.2.1 (by decide) (by decide)
    exact ⟨by decide, by decide, h.1, h.2⟩
  · have h := (C9_page_movement (HexWindow.init file200 4)).2.2.2.2.1 (by decide)
    exact ⟨by decide, h.1, h.2⟩

/-- A 100-byte all-zero file with cache size 20 and resident window
`[0, 20)`, used to exhibit the `find` window advance. -/
def m100 : MemoryFile :=
  { contents := List.replicate 100 0
    filesize := 100
    low := 0
    high := 20
    data := List.replicate 20 0
    cachesize := 20 }

/-- C7 counterexample: in a state where the cached bytes hold no match and
`high < N`, the advance performed by `find` (hexview.py:139-140) does not
leave `low = high - len(pattern)`: the subsequent `pagefault` re-centers
the window, giving `low = max(high - len - cachesize/2, 0)` — here 8, not
18. -/
theorem C7_counterexample :
    pyFindFrom m100.data [1, 1] 0 = -1 ∧
    m100.high < m100.filesize ∧
    m100.high - 2 = 18 ∧
    (m100.findAdvance 2).low = 8 ∧
    (m100.findAdvance 2).low ≠ m100.high - 2 := by
  refine ⟨?_, ?_, ?_, ?_, ?_⟩ <;> decide

theorem MemoryFile.findLoop_notfound_exhausted (needle : List Nat) (rpos : Int)
    (fuel : Nat) (m mf : MemoryFile) (hm : m.Inv)
    (h : MemoryFile.findLoop needle rpos fuel m = (some (-1), mf)) :
    mf.filesize ≤ mf.high := by
  induction fuel generalizing m with
  | zero => simp [MemoryFile.findLoop] at h
  | succ n ih =>
    simp only [MemoryFile.findLoop] at h
    split_ifs at h with h1 h2
    · obtain ⟨hsz, hl0, _, _, _, _⟩ := hm
      simp only [Prod.mk.injEq, Option.some.injEq] at h
      omega
    · simp only [Prod.mk.injEq, Option.some.injEq] at h
      rw [← h.2]
      exact h2
    · exact ih _ (m.findAdvance_post (needle.length : Int) hm (by positivity)).1 h

/-- C7 (amended): when `find` has no match in the cached bytes and
`high < N`, it advances by calling `pagefault(high - len(pattern))`, so the
new window is `[max(high - len - cachesize/2, 0),
min(high - len + cachesize/2, N))` — an overlap that still covers the
boundary-straddling range `[high - len, high)` whenever
`len ≤ cachesize/2`; the loop repeats until a match is found or the window
reaches EOF, and a not-found result from an in-range start position is
returned only with the window exhausted (`high = N`); in particular a
forward search started at the last searchable address of `"abcabc"`
returns not-found rather than wrapping to offset 0. -/
theorem C7_find_window_advance :
    (∀ (m : MemoryFile) (tlen : Int),
      (m.findAdvance tlen).low = max (m.high - tlen - m.cachesize / 2) 0) ∧
    (∀ (m : MemoryFile) (tlen : Int), m.Inv → 0 ≤ tlen → tlen ≤ m.high →
      (m.findAdvance tlen).high = min (m.high - tlen + m.cachesize / 2) m.filesize) ∧
    (∀ (m : MemoryFile) (tlen : Int), m.Inv → 0 ≤ tlen → tlen ≤ m.high →
      tlen ≤ m.cachesize / 2 →
      (m.findAdvance tlen).low ≤ m.high - tlen ∧ m.high ≤ (m.findAdvance tlen).high) ∧
    (∀ (m : MemoryFile) (needle : List Nat) (pos : Int) (fuel : Nat) (mf : MemoryFile),
      m.Inv → 0 ≤ pos → pos < m.filesize →
      m.find needle pos fuel = (some (-1), mf) → mf.filesize ≤ mf.high) ∧
    (mAbc.find [97, 98, 99] 5 10).1 = some (-1) := by
  refine ⟨?_, ?_, ?_, ?_, by decide⟩
  · intro m tlen
    simp only [MemoryFile.findAdvance, MemoryFile.pagefault]
    split_ifs <;> omega
  · intro m tlen hm h0 hhigh
    obtain ⟨hsz, hl0, hlh, hhN, hdata, hc⟩ := hm
    simp only [MemoryFile.findAdvance, MemoryFile.pagefault, fileRead]
    split_ifs <;> simp only [List.length_take, List.length_drop] <;> omega
  · intro m tlen hm h0 hhigh hcap
    obtain ⟨hsz, hl0, hlh, hhN, hdata, hc⟩ := hm
    simp only [MemoryFile.findAdvance, MemoryFile.pagefault, fileRead]
    split_ifs <;> simp only [List.length_take, List.length_drop] <;>
      constructor <;> omega
  · intro m needle pos fuel mf hm h0 hN h
    have hlo : m.low ≤ m.filesize := by obtain ⟨_, _, h3, h4, _, _⟩ := hm; omega
    simp only [MemoryFile.find] at h
    split_ifs at h with hout hpf
    · omega
    · exact MemoryFile.findLoop_notfound_exhausted needle _ fuel _ mf
        (m.pagefault_inv m.low hm hlo) h
    · exact MemoryFile.findLoop_notfound_exhausted needle _ fuel _ mf hm h

theorem C7_find_window_advance_witness :
    (m100.findAdvance 2).low = max (m100.high - 2 - m100.cachesize / 2) 0 ∧
    (m100.findAdvance 2).high = min (m100.high - 2 + m100.cachesize / 2) m100.filesize ∧
    ((m100.findAdvance 2).low ≤ m100.high - 2 ∧ m100.high ≤ (m100.findAdvance 2).high) ∧
    mAbc.filesize ≤ mAbc.high := by
  have h := C7_find_window_advance
  have hinv100 : m100.Inv := by
    simp only [MemoryFile.Inv]
    refine ⟨by decide, by decide, by decide, by decide, by decide, by decide⟩
  have hinvAbc : mAbc.Inv := by
    simp only [MemoryFile.Inv]
    refine ⟨by decide, by decide, by decide, by decide, by decide, by decide⟩
  refine ⟨h.1 m100 2, ?_, ?_, ?_⟩
  · exact h.2.1 m100 2 hinv100 (by decide) (by decide)
  · exact h.2.2.1 m100 2 hinv100 (by decide) (by decide) (by decide)
  · exact h.2.2.2.1 mAbc [97, 98, 99] 5 10 mAbc hinvAbc (by decide) (by decide)
      (by decide)

/-- The descending scan loop of `bytearray_find_backwards`
(hexview.py:1689-1695): try positions `p, p-1, ..., 0`, comparing the
slice `data[pos : pos+len(search)]` (a `MemoryFile` slice, as
`HexWindow.find_backwards` passes `self.data`) with the pattern; `none`
in the first component models a propagated `IndexError`. -/
def fbScan (search : List Nat) : Nat → MemoryFile → Option Int × MemoryFile
  | 0, m =>
    let r := m.getslice ((0 : Nat) : Int) (((0 : Nat) : Int) + (search.length : Int))
    match r.1 with
    | none => (none, r.2)
    | some s =>
      if s = search then (some ((0 : Nat) : Int), r.2)
      else (some (-1), r.2)
  | q + 1, m =>
    let r := m.getslice ((q + 1 : Nat) : Int) (((q + 1 : Nat) : Int) + (search.length : Int))
    match r.1 with
    | none => (none, r.2)
    | some s =>
      if s = search then (some ((q + 1 : Nat) : Int), r.2)
      else fbScan search q r.2

/-- `bytearray_find_backwards` (hexview.py:1670-1695) on a `MemoryFile`
(`len(data)` is the file size).  The raised `ValueError`s and the stray
`return ValueError` (hexview.py:1686) are modelled as `none`. -/
def bytearray_find_backwards (m : MemoryFile) (search : List Nat) (pos : Int) :
    Option Int × MemoryFile :=
  if m.filesize = 0 then (none, m)
  else if search.length = 0 then (none, m)
  else
    let pos1 := if pos = -1 then m.filesize else pos
    if pos1 < 0 then (none, m)
    else
      let start := pos1 - (search.length : Int)
      if start < 0 then (some (-1), m)
      else fbScan search start.toNat m

/-- `search` occurs in the file bytes at position `q`. -/
def matchAt (contents search : List Nat) (q : Nat) : Prop :=
  (contents.drop q).take search.length = search

/-- Pure descending scan over the file bytes: the first position
`p, p-1, ..., 0` where `search` occurs in `contents`, else `-1`. -/
def listFindBackFrom (contents search : List Nat) : Nat → Int
  | 0 =>
    if (contents.drop 0).take search.length = search then ((0 : Nat) : Int) else -1
  | q + 1 =>
    if (contents.drop (q + 1)).take search.length = search then ((q + 1 : Nat) : Int)
    else listFindBackFrom contents search q

theorem pySlice_spec (l : List Nat) (p len : Nat) (h : p + len ≤ l.length) :
    pySlice l (p : Int) ((p : Int) + (len : Int)) = (l.drop p).take len := by
  simp only [pySlice]
  rw [if_neg (by omega), if_neg (by omega)]
  have h1 : (min ((p : Int)) ((l.length : Int))).toNat = p := by omega
  have h2 : (min ((p : Int) + (len : Int)) ((l.length : Int))).toNat = p + len := by
    omega
  rw [h1, h2, List.drop_take]
  congr 1
  omega

theorem MemoryFile.getslice_resident (m : MemoryFile) (p len : Nat)
    (hlow : m.low = 0) (hhigh : m.high = m.filesize) (hdata : m.data = m.contents)
    (hsz : m.filesize = (m.contents.length : Int))
    (hp : (p : Int) + (len : Int) ≤ m.filesize) :
    m.getslice (p : Int) ((p : Int) + (len : Int)) =
      (some ((m.contents.drop p).take len), m) := by
  simp only [MemoryFile.getslice]
  rw [if_neg (by omega), if_neg (by omega), hlow, hdata]
  simp only [sub_zero]
  rw [pySlice_spec m.contents p len (by omega)]

theorem fbScan_resident (search : List Nat) (p : Nat) (m : MemoryFile)
    (hlow : m.low = 0) (hhigh : m.high = m.filesize) (hdata : m.data = m.contents)
    (hsz : m.filesize = (m.contents.length : Int))
    (hp : (p : Int) + (search.length : Int) ≤ m.filesize) :
    fbScan search p m = (some (listFindBackFrom m.contents search p), m) := by
  induction p with
  | zero =>
    have hgs := m.getslice_resident 0 search.length hlow hhigh hdata hsz
      (by push_cast at hp ⊢; omega)
    rw [fbScan, listFindBackFrom]
    simp only [hgs]
    split_ifs with hm <;> rfl
  | succ q ih =>
    have hgs := m.getslice_resident (q + 1) search.length hlow hhigh hdata hsz
      (by push_cast at hp ⊢; omega)
    rw [fbScan, listFindBackFrom]
    simp only [hgs]
    split_ifs with hm
    · rfl
    · exact ih (by push_cast at hp ⊢; omega)

theorem listFindBackFrom_spec (contents search : List Nat) (p : Nat) :
    (∀ q : Nat, listFindBackFrom contents search p = (q : Int) →
      q ≤ p ∧ matchAt contents search q ∧
      ∀ r : Nat, q < r → r ≤ p → ¬ matchAt contents search r) ∧
    (listFindBackFrom contents search p = -1 →
      ∀ q : Nat, q ≤ p → ¬ matchAt contents search q) := by
  induction p with
  | zero =>
    rw [listFindBackFrom]
    split_ifs with hm
    · constructor
      · intro q hq
        have hq0 : q = 0 := by omega
        subst hq0
        refine ⟨le_refl 0, hm, ?_⟩
        intro r h1 h2
        exfalso
        omega
      · intro hq
        exact hq.elim
    · constructor
      · intro q hq
        exact hq.elim
      · intro _ q hq
        have hq0 : q = 0 := by omega
        subst hq0
        exact hm
  | succ n ih =>
    rw [listFindBackFrom]
    split_ifs with hm
    · constructor
      · intro q hq
        have hqn : q = n + 1 := by omega
        subst hqn
        refine ⟨le_refl _, hm, ?_⟩
        intro r h1 h2
        exfalso
        omega
      · intro hq
        exact hq.elim
    · constructor
      · intro q hq
        obtain ⟨ha, hb, hc⟩ := ih.1 q hq
        refine ⟨by omega, hb, ?_⟩
        intro r h1 h2
        rcases Nat.lt_or_ge r (n + 1) with h3 | h3
        · exact hc r h1 (by omega)
        · have hr : r = n + 1 := by omega
          subst hr
          exact hm
      · intro hq q hle
        rcases Nat.lt_or_ge q (n + 1) with h3 | h3
        · exact ih.2 hq q (by omega)
        · have hr : q = n + 1 := by omega
          subst hr
          exact hm

/-- C6 (amended): with the pattern-containing region of the file resident
in the cache window (here: the window covering the whole file, as holds
in Scenario D), backward search scans candidate start offsets descending
from `from_addr - len(pattern)` down to 0, comparing the file bytes at
each offset to the pattern, and returns the highest-offset (nearest) such
candidate that matches, `-1` if none — in particular, on `"abcabc"`,
`find_backward("abc", from_addr=5)` starts its scan at offset `5 - 3 = 2`
and therefore returns offset 0 (the match at 3 is never a candidate). -/
theorem C6_backward_search (m : MemoryFile) (search : List Nat) (pos : Int)
    (hlow : m.low = 0) (hhigh : m.high = m.filesize) (hdata : m.data = m.contents)
    (hsz : m.filesize = (m.contents.length : Int)) (hne : search.length ≠ 0)
    (h0 : 0 ≤ pos - (search.length : Int)) (hpos : pos < m.filesize) :
    bytearray_find_backwards m search pos =
      (some (listFindBackFrom m.contents search
        (pos - (search.length : Int)).toNat), m) ∧
    (∀ q : Nat, listFindBackFrom m.contents search
        (pos - (search.length : Int)).toNat = (q : Int) →
      q ≤ (pos - (search.length : Int)).toNat ∧ matchAt m.contents search q ∧
      ∀ r : Nat, q < r → r ≤ (pos - (search.length : Int)).toNat →
        ¬ matchAt m.contents search r) ∧
    (listFindBackFrom m.contents search (pos - (search.length : Int)).toNat = -1 →
      ∀ q : Nat, q ≤ (pos - (search.length : Int)).toNat →
        ¬ matchAt m.contents search q) := by
  refine ⟨?_, (listFindBackFrom_spec m.contents search _).1,
    (listFindBackFrom_spec m.contents search _).2⟩
  simp only [bytearray_find_backwards]
  rw [if_neg (by omega), if_neg hne, if_neg (by omega : ¬ pos = -1),
    if_neg (by omega), if_neg (by omega)]
  exact fbScan_resident search _ m hlow hhigh hdata hsz (by omega)

/-- C6 counterexample: on the file `"abcabc"` (fully resident),
`find_backward("abc", from_addr=5)` returns offset 0, not 3: the scan's
first candidate is `5 - 3 = 2`, so the match starting at 3 is never
compared. -/
theorem C6_counterexample :
    (bytearray_find_backwards mAbc [97, 98, 99] 5).1 = some 0 ∧
    (bytearray_find_backwards mAbc [97, 98, 99] 5).1 ≠ some 3 := by
  constructor <;> decide

theorem C6_backward_search_witness :
    bytearray_find_backwards mAbc [97, 98, 99] 5 = (some 0, mAbc) := by
  have h := C6_backward_search mAbc [97, 98, 99] 5 (by decide) (by decide)
    (by decide) (by decide) (by decide) (by decide) (by decide)
  rw [h.1]
  decide

end Hexview
